import Mathlib

/-!
Shallow embedding of the liquidity service from src/services/liquidity.js:
the approval manager (approveToken), the transaction confirmation tracker
(waitForTransaction) and the liquidity position builder (addLiquidity).

Chain interaction (allowance reads, broadcasts, receipt polls) is modelled
by explicit oracles supplied to each operation: every network call of the
source is one oracle lookup, and a thrown JS error is an error value of
the oracle. Amounts are Nat (uint256 values), addresses are String, and
JS BigInt arithmetic is Nat arithmetic.
-/

set_option autoImplicit false

namespace Pharos

/-- Transaction receipt: only the status flag is inspected by the source
(line 44: receipt.status === 1). -/
structure Receipt where
  status : Nat
  deriving DecidableEq, Repr

/-- Error reaching the catch block of waitForTransaction: an optional
numeric provider code and a message string (lines 49 and 57). -/
structure RpcError where
  code : Option Int
  message : String
  deriving DecidableEq, Repr

/-- Outcome of one provider.waitForTransaction call (line 43): the promise
resolves with a receipt, resolves with null, or rejects with an error. -/
inductive PollResult where
  | ok : Option Receipt → PollResult
  | err : RpcError → PollResult
  deriving DecidableEq, Repr

/-- List-level check that the first list starts the second, used to model
the JS String.prototype.includes test on error messages. -/
def leadsWith : List Char → List Char → Bool
  | [], _ => true
  | _ :: _, [] => false
  | a :: as, b :: bs => a = b && leadsWith as bs

/-- List-level contiguous-subsequence check. -/
def containsSeq (n : List Char) : List Char → Bool
  | [] => leadsWith n []
  | b :: bs => leadsWith n (b :: bs) || containsSeq n bs

/-- Model of the JS test message.includes(needle) (line 49). -/
def strContains (hay needle : String) : Bool :=
  containsSeq needle.data hay.data

/-- Error constructed at line 47 when the receipt is null or its status is
not 1: new Error with the failed-or-reverted message, carrying no code. -/
def mkRevertError (txHash : String) : RpcError :=
  { code := none, message := "Transaction " ++ txHash ++ " failed or reverted" }

/-- Transient classification of line 49: provider code -32008, or message
containing the receipt-lookup method name. -/
def isTransient (e : RpcError) : Bool :=
  e.code == some (-32008) || strContains e.message "eth_getTransactionReceipt"

/-- What one loop iteration of waitForTransaction (lines 42 to 59) decides
before the retry bookkeeping: return the receipt, retry after a delay, or
fail the whole call. -/
inductive AttemptOutcome where
  | success : Receipt → AttemptOutcome
  | retryT : AttemptOutcome
  | fatal : AttemptOutcome
  deriving DecidableEq, Repr

/-- One attempt of waitForTransaction: a success-status receipt is returned;
a null receipt or a failure-status receipt raises the line-47 error, which
is then classified like any caught error; a rejected poll is classified
directly. -/
def attemptStep (txHash : String) (p : PollResult) : AttemptOutcome :=
  match p with
  | .ok (some r) =>
      if r.status = 1 then .success r
      else if isTransient (mkRevertError txHash) then .retryT else .fatal
  | .ok none =>
      if isTransient (mkRevertError txHash) then .retryT else .fatal
  | .err e =>
      if isTransient e then .retryT else .fatal

/-- Retry loop of waitForTransaction (lines 41 to 62). The oracle polls
gives the provider behaviour of each attempt, numbered from 1. Returns the
final result together with the number of attempts performed; attempt equal
to retries on a transient error returns null (line 51). -/
def wftAux (txHash : String) (polls : Nat → PollResult) :
    Nat → Nat → Option Receipt × Nat
  | _, 0 => (none, 0)
  | attempt, rem + 1 =>
      match attemptStep txHash (polls attempt) with
      | .success r => (some r, 1)
      | .fatal => (none, 1)
      | .retryT =>
          if rem = 0 then (none, 1)
          else
            let t := wftAux txHash polls (attempt + 1) rem
            (t.1, t.2 + 1)

/-- Model of waitForTransaction(txHash, confirmations, retries = 5):
the confirmations argument only parameterises the provider call, which the
oracle already abstracts. -/
def waitForTransaction (txHash : String) (polls : Nat → PollResult)
    (retries : Nat := 5) : Option Receipt × Nat :=
  wftAux txHash polls 1 retries

/-- Maximum uint256 value, ethers.MaxUint256 (line 29). -/
def MaxUint256 : Nat := 2 ^ 256 - 1

/-- Chain behaviour seen by one approveToken call: the allowance read
(none models a throwing read), the approve broadcast (none models a
throwing broadcast, some h the hash of the approval transaction), and the
provider behaviour while confirming that transaction. -/
structure TokenEnv where
  allowance : Option Nat
  approveBroadcast : Option String
  polls : Nat → PollResult

/-- Model of approveToken (lines 19 to 37): read the allowance; if it
covers the amount return true; otherwise broadcast a MaxUint256 approval
and wait for it, returning true without inspecting the wait result
(line 30 discards it); any thrown read or broadcast error is caught and
yields false. -/
def approveToken (env : TokenEnv) (amount : Nat) : Bool :=
  match env.allowance with
  | none => false
  | some al =>
      if amount ≤ al then true
      else
        match env.approveBroadcast with
        | none => false
        | some h =>
            let _r := waitForTransaction h env.polls 5
            true

/-- State-transformer view of approveToken together with the chain effect
of the approval it broadcasts: given the current allowance, whether the
approve broadcast succeeds, and whether the broadcast approval lands
on-chain (setting the allowance to MaxUint256), it returns the boolean
result of approveToken, the number of approval transactions submitted,
and the allowance after the call. -/
def approveTokenS (allowance : Nat) (broadcastOk lands : Bool)
    (amount : Nat) : Bool × Nat × Nat :=
  if amount ≤ allowance then (true, 0, allowance)
  else if broadcastOk then (true, 1, if lands then MaxUint256 else allowance)
  else (false, 0, allowance)

/-- Lexicographic comparison of character lists by code point, modelling
the JS string comparison of line 83 on the address strings. -/
def charListLt : List Char → List Char → Bool
  | [], [] => false
  | [], _ :: _ => true
  | _ :: _, [] => false
  | a :: as, b :: bs =>
      if a < b then true else if b < a then false else charListLt as bs

/-- JS less-than on strings. -/
def strLt (a b : String) : Bool :=
  charListLt a.data b.data

/-- Model of the JS String.prototype.split on the dot character, used by
ethers when parsing a decimal amount. -/
def splitDot : List Char → List (List Char)
  | [] => [[]]
  | c :: cs =>
      if c = '.' then [] :: splitDot cs
      else
        match splitDot cs with
        | [] => [[c]]
        | h :: t => (c :: h) :: t

/-- Digit-list check for the decimal amount strings accepted by
ethers.parseEther. -/
def isDigitL (l : List Char) : Bool :=
  l.all (fun c => c.isDigit)

/-- Value of a digit list read in base 10. -/
def digitsToNat (l : List Char) : Nat :=
  l.foldl (fun a c => a * 10 + (c.toNat - 48)) 0

/-- Model of ethers.parseEther (lines 85 to 86): a decimal string is
converted to base units with the fixed 18-decimal exponent; an optional
fractional part of at most 18 digits is scaled by the remaining powers of
ten. An invalid string throws in ethers, modelled as none (the throw is
caught by the outer handler of addLiquidity, line 143). -/
def parseEther (s : String) : Option Nat :=
  match splitDot s.data with
  | [i] =>
      if !i.isEmpty && isDigitL i then
        some (digitsToNat i * 10 ^ 18)
      else none
  | [i, f] =>
      if !i.isEmpty && isDigitL i && !f.isEmpty &&
          isDigitL f && decide (f.length ≤ 18) then
        some (digitsToNat i * 10 ^ 18 +
          digitsToNat f * 10 ^ (18 - f.length))
      else none
  | _ => none

/-- Canonical pair computation of lines 83 to 84: token0 is the input
address that compares lower as a JS string, token1 the other. -/
def canonicalPair (aAddr bAddr : String) : String × String :=
  (if strLt aAddr bAddr then aAddr else bAddr,
   if strLt aAddr bAddr then bAddr else aAddr)

/-- Desired amounts of lines 85 to 86: amount0Desired takes the amount of
whichever input token became token0, amount1Desired the other amount. -/
def desiredAmounts (aAddr bAddr : String) (amountA amountB : String) :
    Option Nat × Option Nat :=
  let token0 := (canonicalPair aAddr bAddr).1
  (if aAddr = token0 then parseEther amountA else parseEther amountB,
   if aAddr = token0 then parseEther amountB else parseEther amountA)

/-- Arguments of the two approveToken calls of lines 89 to 90: the token-A
address is approved for amount0Desired and the token-B address for
amount1Desired; none when either parseEther throws. -/
def approveCalls (aAddr bAddr : String) (amountA amountB : String) :
    Option ((String × Nat) × (String × Nat)) :=
  match desiredAmounts aAddr bAddr amountA amountB with
  | (some a0, some a1) => some ((aAddr, a0), (bAddr, a1))
  | _ => none

/-- Gas limit computation of lines 124 to 128: the estimate, or 500000
when estimation rejects, multiplied by 12 and divided by 10 in truncating
BigInt arithmetic. -/
def computeGasLimit (estimateRes : Option Nat) : Nat :=
  (estimateRes.getD 500000) * 12 / 10

/-- ASCII uppercase mapping of one character, modelling the effect of the
JS toUpperCase call of lines 75 to 76 on the code points involved. -/
def upChar (c : Char) : Char :=
  if 97 ≤ c.toNat ∧ c.toNat ≤ 122 then Char.ofNat (c.toNat - 32) else c

/-- String uppercase, applied characterwise. -/
def toUpperStr (s : String) : String :=
  ⟨s.data.map upChar⟩

/-- Static chain configuration consumed by the service: the three token
addresses of the registry (lines 69 to 73) and the router address. -/
structure Config where
  WPHRS : String
  USDT : String
  USDC : String
  ROUTER : String

/-- Token registry lookup of lines 69 to 76: the symbol is uppercased and
looked up among the three fixed keys; an unknown key gives undefined,
modelled as none. -/
def tokenMap (cfg : Config) (sym : String) : Option String :=
  if toUpperStr sym = "PHRS" then some cfg.WPHRS
  else if toUpperStr sym = "USDT" then some cfg.USDT
  else if toUpperStr sym = "USDC" then some cfg.USDC
  else none

/-- Transaction request fields of lines 117 to 128 that vary per call: the
attached native value and the final gas limit. -/
structure TxParams where
  value : Nat
  gasLimit : Nat
  deriving DecidableEq, Repr

/-- Chain behaviour seen by one addLiquidity call: the configuration, the
chain behaviour of the two approval legs, the gas-estimation outcome (none
models a rejected estimateGas, caught at line 124), the broadcast outcome
as a function of the submitted parameters (none models a throwing
sendTransaction), and the provider behaviour while confirming the
liquidity transaction. -/
structure Env where
  cfg : Config
  tokenEnvA : TokenEnv
  tokenEnvB : TokenEnv
  estimateRes : Option Nat
  sendTx : TxParams → Option String
  polls : Nat → PollResult

/-- Model of addLiquidity (lines 66 to 147): resolve both symbols (null on
an unresolvable one), compute the canonical pair and desired amounts,
approve both legs (null when either approval returns false), build the
transaction with the native value of line 120 and the padded gas limit,
broadcast it, and return its hash exactly when waitForTransaction returns
a receipt; every thrown step is absorbed into null by the outer handler. -/
def addLiquidity (env : Env) (tokenA tokenB amountA amountB : String) :
    Option String :=
  match tokenMap env.cfg tokenA, tokenMap env.cfg tokenB with
  | some aAddr, some bAddr =>
      let p := canonicalPair aAddr bAddr
      match approveCalls aAddr bAddr amountA amountB with
      | some ((_tA, a0), (_tB, a1)) =>
          let okA := approveToken env.tokenEnvA a0
          let okB := approveToken env.tokenEnvB a1
          if okA && okB then
            let value :=
              if p.1 = env.cfg.WPHRS then a0
              else if p.2 = env.cfg.WPHRS then a1
              else 0
            let gasLimit := computeGasLimit env.estimateRes
            match env.sendTx { value := value, gasLimit := gasLimit } with
            | some h =>
                match (waitForTransaction h env.polls 5).1 with
                | some _ => some h
                | none => none
            | none => none
          else none
      | none => none
  | _, _ => none

/-- Concrete poll oracle: one transient provider error, then receipts with
success status. -/
def pollsW6 : Nat → PollResult := fun n =>
  if n = 1 then .err ⟨some (-32008), "blip"⟩ else .ok (some ⟨1⟩)

/-- Concrete chain configuration for witnesses; the wrapped-native address
is the highest so that the canonical order swaps the inputs. -/
def demoCfg : Config :=
  { WPHRS := "0xc", USDT := "0xa", USDC := "0xb", ROUTER := "0xr" }

/-- Poll oracle whose every attempt yields a success-status receipt. -/
def goodPolls : Nat → PollResult := fun _ => .ok (some ⟨1⟩)

/-- Token-leg chain behaviour with an ample allowance. -/
def demoTokenEnv : TokenEnv :=
  { allowance := some (10 ^ 30), approveBroadcast := some "0xappr", polls := goodPolls }

/-- Concrete addLiquidity environment whose gas estimation fails and whose
broadcast only accepts the fallback gas limit of 600000. -/
def demoEnv : Env :=
  { cfg := demoCfg, tokenEnvA := demoTokenEnv, tokenEnvB := demoTokenEnv,
    estimateRes := none,
    sendTx := fun p => if p.gasLimit = 600000 then some "0xliq" else none,
    polls := goodPolls }

/-! Helper lemmas. -/

theorem charOfNat_toNat (n : Nat) (h : n < 55296) : (Char.ofNat n).toNat = n := by
  have hv : n.isValidChar := Or.inl h
  simp [Char.ofNat, hv, Char.ofNatAux, Char.toNat, UInt32.toNat]

theorem upChar_idem (c : Char) : upChar (upChar c) = upChar c := by
  unfold upChar
  by_cases h : 97 ≤ c.toNat ∧ c.toNat ≤ 122
  · rw [if_pos h]
    have hlt : c.toNat - 32 < 55296 := by omega
    have ht : (Char.ofNat (c.toNat - 32)).toNat = c.toNat - 32 := charOfNat_toNat _ hlt
    rw [if_neg]
    rw [ht]
    omega
  · rw [if_neg h, if_neg h]

theorem toUpperStr_idem (s : String) : toUpperStr (toUpperStr s) = toUpperStr s := by
  have hl : ∀ l : List Char, (l.map upChar).map upChar = l.map upChar := by
    intro l
    induction l with
    | nil => rfl
    | cons c cs ih => simp [upChar_idem c, ih]
  unfold toUpperStr
  exact congrArg String.mk (hl s.data)

theorem wftAux_attempts_le (tx : String) (polls : Nat → PollResult) :
    ∀ (rem attempt : Nat), (wftAux tx polls attempt rem).2 ≤ rem := by
  intro rem
  induction rem with
  | zero => intro attempt; simp [wftAux]
  | succ n ih =>
      intro attempt
      simp only [wftAux]
      cases attemptStep tx (polls attempt) with
      | success r => simp
      | fatal => simp
      | retryT =>
          by_cases h : n = 0
          · simp [h]
          · simp only [if_neg h]
            have := ih (attempt + 1)
            simp
            omega

theorem attemptStep_success_status (tx : String) (p : PollResult) (r : Receipt)
    (h : attemptStep tx p = .success r) : r.status = 1 := by
  cases p with
  | ok o =>
      cases o with
      | none =>
          simp only [attemptStep] at h
          split at h <;> simp at h
      | some rc =>
          simp only [attemptStep] at h
          by_cases hs : rc.status = 1
          · rw [if_pos hs] at h
            injection h with h2
            subst h2
            exact hs
          · rw [if_neg hs] at h
            split at h <;> simp at h
  | err e =>
      simp only [attemptStep] at h
      split at h <;> simp at h

theorem wftAux_status_one (tx : String) (polls : Nat → PollResult) :
    ∀ (rem attempt : Nat) (r : Receipt),
      (wftAux tx polls attempt rem).1 = some r → r.status = 1 := by
  intro rem
  induction rem with
  | zero => intro attempt r h; simp [wftAux] at h
  | succ n ih =>
      intro attempt r h
      simp only [wftAux] at h
      cases hs : attemptStep tx (polls attempt) with
      | success r0 =>
          rw [hs] at h
          simp at h
          subst h
          exact attemptStep_success_status tx (polls attempt) r0 hs
      | fatal => rw [hs] at h; simp at h
      | retryT =>
          rw [hs] at h
          by_cases hn : n = 0
          · rw [if_pos hn] at h; simp at h
          · rw [if_neg hn] at h
            exact ih (attempt + 1) r h

theorem wftAux_succ_retry (tx : String) (polls : Nat → PollResult) (attempt n : Nat)
    (h : attemptStep tx (polls attempt) = .retryT) (hn : n ≠ 0) :
    wftAux tx polls attempt (n + 1) =
      ((wftAux tx polls (attempt + 1) n).1, (wftAux tx polls (attempt + 1) n).2 + 1) := by
  simp only [wftAux, h, if_neg hn]

theorem wftAux_succ_success (tx : String) (polls : Nat → PollResult) (attempt n : Nat)
    (r : Receipt) (h : attemptStep tx (polls attempt) = .success r) :
    wftAux tx polls attempt (n + 1) = (some r, 1) := by
  simp only [wftAux, h]

theorem wftAux_succ_fatal (tx : String) (polls : Nat → PollResult) (attempt n : Nat)
    (h : attemptStep tx (polls attempt) = .fatal) :
    wftAux tx polls attempt (n + 1) = (none, 1) := by
  simp only [wftAux, h]

theorem wftAux_all_retry (tx : String) (polls : Nat → PollResult) :
    ∀ (rem attempt : Nat),
      (∀ i, attempt ≤ i → i < attempt + rem → attemptStep tx (polls i) = .retryT) →
      (wftAux tx polls attempt rem).1 = none := by
  intro rem
  induction rem with
  | zero => intro attempt h; simp [wftAux]
  | succ n ih =>
      intro attempt h
      have h1 : attemptStep tx (polls attempt) = .retryT := h attempt le_rfl (by omega)
      by_cases hn : n = 0
      · subst hn
        simp only [wftAux, h1]
        simp
      · rw [wftAux_succ_retry tx polls attempt n h1 hn]
        exact ih (attempt + 1) (fun i hi1 hi2 => h i (by omega) (by omega))

theorem charListLt_asymm : ∀ x y : List Char,
    charListLt x y = true → charListLt y x = false := by
  intro x
  induction x with
  | nil =>
      intro y h
      cases y with
      | nil => simp [charListLt] at h
      | cons b bs => simp [charListLt]
  | cons a as ih =>
      intro y h
      cases y with
      | nil => simp [charListLt] at h
      | cons b bs =>
          simp only [charListLt] at h ⊢
          by_cases hab : a < b
          · have hba : ¬ b < a := lt_asymm hab
            rw [if_neg hba, if_pos hab]
          · rw [if_neg hab] at h
            by_cases hba : b < a
            · rw [if_pos hba] at h
              simp at h
            · rw [if_neg hba] at h
              rw [if_neg hba, if_neg hab]
              exact ih bs h

theorem charListLt_connex : ∀ x y : List Char,
    charListLt x y = false → charListLt y x = false → x = y := by
  intro x
  induction x with
  | nil =>
      intro y h1 h2
      cases y with
      | nil => rfl
      | cons b bs => simp [charListLt] at h1
  | cons a as ih =>
      intro y h1 h2
      cases y with
      | nil => simp [charListLt] at h2
      | cons b bs =>
          simp only [charListLt] at h1 h2
          by_cases hab : a < b
          · rw [if_pos hab] at h1
            simp at h1
          · by_cases hba : b < a
            · rw [if_pos hba] at h2
              simp at h2
            · rw [if_neg hab, if_neg hba] at h1
              have heq : a = b := le_antisymm (not_lt.mp hba) (not_lt.mp hab)
              rw [if_neg hba, if_neg hab] at h2
              rw [heq, ih bs h1 h2]

theorem strLt_asymm (a b : String) (h : strLt a b = true) : strLt b a = false :=
  charListLt_asymm _ _ h

theorem strLt_connex (a b : String) (h1 : strLt a b = false)
    (h2 : strLt b a = false) : a = b := by
  have hd : a.data = b.data := charListLt_connex _ _ h1 h2
  cases a
  cases b
  simp_all

/-! Claim theorems. -/

/-- Claim C1 (code bug): with tokenA resolving to the higher address "0xb"
and amounts amountA = "2", amountB = "1", the approval call for the
token-A leg receives amount0Desired, which is the base-unit amount of
amountB, strictly below the base-unit deposit amount of the token-A leg. -/
theorem approval_amount_mismatch_bug :
    approveCalls "0xb" "0xa" "2" "1" =
      some (("0xb", 10 ^ 18), ("0xa", 2 * 10 ^ 18))
    ∧ parseEther "2" = some (2 * 10 ^ 18)
    ∧ 10 ^ 18 < 2 * 10 ^ 18 := by
  decide

/-- Claim C2, counterexample: with a zero allowance and a broadcast
approval whose confirmation polls always fail transiently, the tracker
returns no receipt for the approval transaction, yet approveToken returns
true, because line 30 discards the result of waitForTransaction. -/
theorem approveToken_true_despite_unconfirmed :
    (waitForTransaction "0xh" (fun _ => .err ⟨some (-32008), "node busy"⟩) 5).1 = none
    ∧ approveToken
        ⟨some 0, some "0xh", fun _ => .err ⟨some (-32008), "node busy"⟩⟩ 1 = true := by
  decide

/-- Claim C2, amended: approveToken never throws and returns false exactly
when the allowance read fails, or the allowance is insufficient and the
approval broadcast fails; a confirmation failure of the broadcast approval
does not make it return false. -/
theorem approveToken_false_iff (env : TokenEnv) (amount : Nat) :
    approveToken env amount = false ↔
      (env.allowance = none ∨
        ∃ al, env.allowance = some al ∧ al < amount ∧ env.approveBroadcast = none) := by
  cases hal : env.allowance with
  | none => simp [approveToken, hal]
  | some al =>
      by_cases hle : amount ≤ al
      · simp [approveToken, hal, hle]
      · cases hb : env.approveBroadcast with
        | none => simp [approveToken, hal, hle, hb]; omega
        | some h => simp [approveToken, hal, hle, hb]

/-- Claim C3, counterexample: when every poll returns a receipt with
failure status, waitForTransaction returns null after a single attempt
instead of retrying up to the five configured attempts. -/
theorem reverted_receipt_returns_immediately :
    waitForTransaction "0xabc" (fun _ => .ok (some ⟨0⟩)) 5 = (none, 1)
    ∧ (waitForTransaction "0xabc" (fun _ => .ok (some ⟨0⟩)) 5).2 ≠ 5 := by
  decide

/-- Claim C3, amended: a receipt with failure status raises the line-47
error, which carries no provider code and (whenever the hash does not
itself contain the receipt-lookup method name) fails the transient test of
line 49, so waitForTransaction returns null immediately on that attempt
with no further polls. -/
theorem reverted_receipt_fatal_no_retry (tx : String) (polls : Nat → PollResult)
    (retries : Nat) (r : Receipt) (h1 : 1 ≤ retries)
    (hp : polls 1 = .ok (some r)) (hs : r.status ≠ 1)
    (hm : strContains (mkRevertError tx).message "eth_getTransactionReceipt" = false) :
    waitForTransaction tx polls retries = (none, 1) := by
  obtain ⟨k, rfl⟩ : ∃ k, retries = k + 1 := ⟨retries - 1, by omega⟩
  have hstep : attemptStep tx (polls 1) = .fatal := by
    rw [hp]
    simp only [attemptStep]
    rw [if_neg hs]
    have htr : isTransient (mkRevertError tx) = false := by
      simp [isTransient, mkRevertError] at hm ⊢
      simp [hm]
    rw [htr]
    simp
  unfold waitForTransaction
  simp only [wftAux, hstep]

/-- Witness for the amended claim C3 at a concrete reverted receipt. -/
theorem reverted_receipt_fatal_no_retry_witness :
    waitForTransaction "0xdead" (fun _ => .ok (some ⟨0⟩)) 5 = (none, 1) :=
  reverted_receipt_fatal_no_retry "0xdead" (fun _ => .ok (some ⟨0⟩)) 5 ⟨0⟩
    (by decide) rfl (by decide) (by decide)

/-- Claim C7: two successive approveToken calls for the same token and
spender with non-decreasing amounts submit at most one approval
transaction, provided a broadcast approval of the first call lands (the
first call finds or establishes a sufficient allowance); and when the
first call establishes the allowance, the second call writes nothing. -/
theorem approveTokenS_single_write (a0 m1 m2 : Nat) (b1 l1 b2 l2 : Bool)
    (h12 : m1 ≤ m2) (hmax : m2 ≤ MaxUint256) (heff : b1 = true → l1 = true) :
    (approveTokenS a0 b1 l1 m1).2.1 +
      (approveTokenS (approveTokenS a0 b1 l1 m1).2.2 b2 l2 m2).2.1 ≤ 1
    ∧ (¬ m1 ≤ a0 → b1 = true →
        (approveTokenS (approveTokenS a0 b1 l1 m1).2.2 b2 l2 m2).2.1 = 0) := by
  unfold approveTokenS
  split_ifs <;> simp_all

/-- Witness for claim C7 at concrete allowances and amounts. -/
theorem approveTokenS_single_write_witness :
    (approveTokenS 0 true true 1).2.1 +
      (approveTokenS (approveTokenS 0 true true 1).2.2 true true 2).2.1 ≤ 1 :=
  (approveTokenS_single_write 0 1 2 true true true true (by decide)
    (by norm_num [MaxUint256]) (fun h => rfl)).1

/-- Claim C8: the canonical pair of lines 83 to 84 is the same for both
argument orders, and for distinct addresses token0 is strictly below
token1 in the JS string order. -/
theorem canonical_pair_symmetric_sorted (a b : String) :
    canonicalPair a b = canonicalPair b a
    ∧ (a ≠ b → strLt (canonicalPair a b).1 (canonicalPair a b).2 = true) := by
  constructor
  · unfold canonicalPair
    cases h1 : strLt a b with
    | true =>
        have h2 : strLt b a = false := strLt_asymm _ _ h1
        simp [h2]
    | false =>
        cases h2 : strLt b a with
        | true => simp [h2]
        | false =>
            have heq : a = b := strLt_connex _ _ h1 h2
            subst heq
            simp
  · intro hne
    unfold canonicalPair
    cases h1 : strLt a b with
    | true => simp [h1]
    | false =>
        have h2 : strLt b a = true := by
          cases h2 : strLt b a with
          | true => rfl
          | false => exact absurd (strLt_connex _ _ h1 h2) hne
        simp [h2]

/-- Witness for claim C8 at two concrete distinct addresses. -/
theorem canonical_pair_symmetric_sorted_witness :
    canonicalPair "0xa" "0xb" = canonicalPair "0xb" "0xa"
    ∧ strLt (canonicalPair "0xa" "0xb").1 (canonicalPair "0xa" "0xb").2 = true :=
  ⟨(canonical_pair_symmetric_sorted "0xa" "0xb").1,
   (canonical_pair_symmetric_sorted "0xa" "0xb").2 (by decide)⟩

/-- Claim C4: addLiquidity returns a non-null hash only when the
confirmation of the broadcast transaction yielded a receipt with success
status within the retry budget; in particular a failure-status receipt can
never surface as a returned hash, since waitForTransaction only returns
receipts whose status is 1. -/
theorem addLiquidity_hash_requires_success_receipt
    (env : Env) (tokenA tokenB amountA amountB hsh : String)
    (hres : addLiquidity env tokenA tokenB amountA amountB = some hsh) :
    ∃ r, (waitForTransaction hsh env.polls 5).1 = some r ∧ r.status = 1 := by
  unfold addLiquidity at hres
  split at hres
  case h_2 => exact absurd hres (by simp)
  case h_1 aAddr bAddr heqA heqB =>
    split at hres
    case h_2 => exact absurd hres (by simp)
    case h_1 tA a0 tB a1 heqC =>
      dsimp only at hres
      split at hres
      case isFalse => exact absurd hres (by simp)
      case isTrue hok =>
        split at hres
        case h_2 => exact absurd hres (by simp)
        case h_1 h0 heqS =>
          split at hres
          case h_2 => exact absurd hres (by simp)
          case h_1 r heqW =>
            have hh : h0 = hsh := by
              injection hres
            subst hh
            exact ⟨r, heqW, wftAux_status_one h0 env.polls 5 1 r heqW⟩

/-- Witness for claim C4 at a concrete environment whose liquidity
transaction confirms on the first poll. -/
theorem addLiquidity_hash_requires_success_receipt_witness :
    ∃ r, (waitForTransaction "0xliq" demoEnv.polls 5).1 = some r ∧ r.status = 1 :=
  addLiquidity_hash_requires_success_receipt demoEnv "PHRS" "USDT" "1" "1" "0xliq"
    (by decide)

/-- Claim C5: each decimal amount is converted with the fixed 10 to the 18
exponent, and lands in the desired-amount slot of whichever canonical slot
its input token became: amountA fills slot 0 unless tokenB's address
compares lower, in which case the slots swap; the example amounts 1.5 and
3.0 convert to 1.5 and 3.0 times 10 to the 18. -/
theorem desired_amounts_conversion_slots :
    (∀ (aAddr bAddr amountA amountB : String) (va vb : Nat),
        parseEther amountA = some va → parseEther amountB = some vb →
        desiredAmounts aAddr bAddr amountA amountB =
          (if strLt bAddr aAddr then (some vb, some va) else (some va, some vb)))
    ∧ parseEther "1.5" = some 1500000000000000000
    ∧ parseEther "3.0" = some 3000000000000000000 := by
  refine ⟨?_, by decide, by decide⟩
  intro a b sA sB va vb hA hB
  unfold desiredAmounts canonicalPair
  cases h1 : strLt a b with
  | true =>
      have h2 : strLt b a = false := strLt_asymm _ _ h1
      simp [h1, h2, hA, hB]
  | false =>
      cases h2 : strLt b a with
      | true =>
          have hne : a ≠ b := by
            intro he
            subst he
            have := strLt_asymm _ _ h2
            rw [h2] at this
            cases this
          simp [h1, h2, hA, hB, hne]
      | false =>
          have heq : a = b := strLt_connex _ _ h1 h2
          subst heq
          simp [h1, h2, hA, hB]

/-- Witness for claim C5 at the spec's example amounts on two concrete
addresses. -/
theorem desired_amounts_conversion_slots_witness :
    desiredAmounts "0xa" "0xb" "1.5" "3.0" =
      (if strLt "0xb" "0xa" then (some 3000000000000000000, some 1500000000000000000)
       else (some 1500000000000000000, some 3000000000000000000)) :=
  desired_amounts_conversion_slots.1 "0xa" "0xb" "1.5" "3.0"
    1500000000000000000 3000000000000000000 (by decide) (by decide)

/-- Claim C6: waitForTransaction performs at most retries poll attempts
and always returns (it never throws, being a total function); a transient
provider error followed by a success-status receipt within the budget
yields that receipt; exhausting the budget on transient errors yields
null; a non-transient error yields null immediately on that attempt. -/
theorem waitForTransaction_bounded_classified
    (tx : String) (polls : Nat → PollResult) (retries : Nat) :
    (waitForTransaction tx polls retries).2 ≤ retries
    ∧ (∀ (e : RpcError) (r : Receipt), polls 1 = .err e → isTransient e = true →
        polls 2 = .ok (some r) → r.status = 1 → 2 ≤ retries →
        (waitForTransaction tx polls retries).1 = some r)
    ∧ ((∀ i, 1 ≤ i → i ≤ retries → ∃ e, polls i = .err e ∧ isTransient e = true) →
        (waitForTransaction tx polls retries).1 = none)
    ∧ (∀ e, polls 1 = .err e → isTransient e = false → 1 ≤ retries →
        waitForTransaction tx polls retries = (none, 1)) := by
  refine ⟨wftAux_attempts_le tx polls retries 1, ?_, ?_, ?_⟩
  · intro e r hp1 ht hp2 hs1 h2r
    have hstep1 : attemptStep tx (polls 1) = .retryT := by
      rw [hp1]; simp [attemptStep, ht]
    have hstep2 : attemptStep tx (polls 2) = .success r := by
      rw [hp2]; simp [attemptStep, hs1]
    obtain ⟨k, rfl⟩ : ∃ k, retries = k + 1 + 1 := ⟨retries - 2, by omega⟩
    unfold waitForTransaction
    rw [wftAux_succ_retry tx polls 1 (k + 1) hstep1 (by omega)]
    rw [wftAux_succ_success tx polls 2 k r hstep2]
  · intro hall
    unfold waitForTransaction
    apply wftAux_all_retry
    intro i hi1 hi2
    obtain ⟨e, hpe, hte⟩ := hall i hi1 (by omega)
    rw [hpe]
    simp [attemptStep, hte]
  · intro e hp1 ht h1r
    have hstep1 : attemptStep tx (polls 1) = .fatal := by
      rw [hp1]; simp [attemptStep, ht]
    obtain ⟨k, rfl⟩ : ∃ k, retries = k + 1 := ⟨retries - 1, by omega⟩
    unfold waitForTransaction
    rw [wftAux_succ_fatal tx polls 1 k hstep1]

/-- Witness for claim C6: a transient first poll followed by a confirmed
receipt returns that receipt. -/
theorem waitForTransaction_bounded_classified_witness :
    (waitForTransaction "0xw" pollsW6 5).1 = some ⟨1⟩ :=
  (waitForTransaction_bounded_classified "0xw" pollsW6 5).2.1
    ⟨some (-32008), "blip"⟩ ⟨1⟩ rfl (by decide) rfl (by decide) (by decide)

/-- Claim C9: a failed gas estimation falls back to 500000, the chosen
value is always multiplied by 12 and divided by 10, the fallback gives
exactly 600000, and the flow does not abort: a concrete environment whose
estimation fails and whose broadcast only accepts a 600000 gas limit still
returns the transaction hash. -/
theorem gas_estimation_fallback :
    computeGasLimit none = 600000
    ∧ (∀ g, computeGasLimit (some g) = g * 12 / 10)
    ∧ addLiquidity demoEnv "PHRS" "USDT" "1" "1" = some "0xliq" := by
  refine ⟨by decide, fun g => rfl, by decide⟩

/-- Claim C10: token symbol resolution uppercases its input before the
registry lookup, so any string resolves exactly as its uppercased form
does, and the usdt spellings all resolve to the configured USDT address. -/
theorem token_resolution_case_insensitive (cfg : Config) (s : String) :
    tokenMap cfg s = tokenMap cfg (toUpperStr s)
    ∧ tokenMap cfg "usdt" = some cfg.USDT
    ∧ tokenMap cfg "Usdt" = some cfg.USDT
    ∧ tokenMap cfg "USDT" = some cfg.USDT := by
  refine ⟨?_, ?_, ?_, ?_⟩
  · unfold tokenMap
    rw [toUpperStr_idem]
  · unfold tokenMap
    rw [if_neg (by decide), if_pos (by decide)]
  · unfold tokenMap
    rw [if_neg (by decide), if_pos (by decide)]
  · unfold tokenMap
    rw [if_neg (by decide), if_pos (by decide)]

end Pharos
